import Mathlib

/-!
Verification development for the xepto50 dose-response pipeline.

Shallow embedding conventions:
* `float` values that carry only ordinary finite data are modelled as `ℚ`
  (frame preparation, the initial-fit override logic, quality scores) or as
  `ℝ` (anything involving `log`/`10 ** x`).
* The IEEE special values NaN and ±infinity matter for the DSS score, so it
  is embedded over an explicit float carrier `Fp` (finite real, two
  infinities, NaN) with the NumPy comparison/arithmetic semantics.
* `raise ValueError` is modelled as `Except.error PrepError.invalidInput`.
-/

/-- Error raised by frame preparation and unit conversion
(`ValueError` in the source, `InvalidInput` in the spec taxonomy). -/
inductive PrepError where
  | invalidInput : PrepError
deriving DecidableEq

/-- Embedding of `unit_conversion` (utils.py lines 5-21): membership test in
the list of valid unit names, then the dictionary lookup. -/
def validUnits : List String := ["Molar", "Millimolar", "Micromolar", "Nanomolar", "Picomolar"]

/-- Embedding of `unit_conversion` (utils.py lines 5-21). -/
def unit_conversion (concentration_unit : String) : Except PrepError ℚ :=
  if concentration_unit ∈ validUnits then
    Except.ok
      (if concentration_unit = "Molar" then 1
       else if concentration_unit = "Millimolar" then 1 / 1000
       else if concentration_unit = "Micromolar" then 1 / 1000000
       else if concentration_unit = "Nanomolar" then 1 / 1000000000
       else 1 / 1000000000000)
  else Except.error PrepError.invalidInput

/-- One row of the dose-response frame built by `create_df` (utils.py):
`drug_concentration` and `inhibition` columns.  The `log10dose` column is
attached by `log10dose` below (it is computed row-wise before the sort and
rows move as a whole, so computing it per record is equivalent). -/
structure DRRecord where
  drug_concentration : ℚ
  inhibition : ℚ
deriving DecidableEq, Repr

/-- Row order used by `df.sort_values(by='drug_concentration')`. -/
abbrev recLE (a b : DRRecord) : Prop := a.drug_concentration ≤ b.drug_concentration

instance : DecidableRel recLE := fun a b =>
  inferInstanceAs (Decidable (a.drug_concentration ≤ b.drug_concentration))

instance : IsTotal DRRecord recLE := ⟨fun _ _ => le_total _ _⟩

instance : IsTrans DRRecord recLE := ⟨fun _ _ _ h h2 => le_trans h h2⟩

/-- The length check and the concentration sort of `create_df`
(utils.py lines 38-49). -/
def sortedFrame (drug_concentrations inhibition_values : List ℚ) :
    Except PrepError (List DRRecord) :=
  if drug_concentrations.length ≠ inhibition_values.length then
    Except.error PrepError.invalidInput
  else
    Except.ok (List.insertionSort recLE
      ((drug_concentrations.zip inhibition_values).map fun p => ⟨p.1, p.2⟩))

/-- The duplicate tie-break of `create_df` (utils.py lines 52-53):
`np.arange(0, len(df) * 0.01, 0.01)` added to the inhibition column, i.e.
`0.01 * index` added to the record at `index` (counting from `start`). -/
def addIncrements : ℕ → List DRRecord → List DRRecord
  | _, [] => []
  | i, r :: rs => { r with inhibition := r.inhibition + (i : ℚ) / 100 } :: addIncrements (i + 1) rs

/-- The duplicate handling of `create_df` (utils.py lines 51-53): increments
are added only when some inhibition value is duplicated. -/
def dedupStep (frame : List DRRecord) : List DRRecord :=
  if (frame.map (fun r => r.inhibition)).Nodup then frame else addIncrements 0 frame

/-- Embedding of `create_df` (utils.py lines 24-54): length check, sort by
concentration, duplicate tie-break. -/
def create_df (drug_concentrations inhibition_values : List ℚ) :
    Except PrepError (List DRRecord) :=
  (sortedFrame drug_concentrations inhibition_values).map dedupStep

/-- The `log10dose` column of `create_df` (utils.py line 47):
`np.log10(drug_concentration * conversion_unit)`. -/
noncomputable def log10dose (conversion_unit : ℝ) (r : DRRecord) : ℝ :=
  Real.logb 10 ((r.drug_concentration : ℝ) * conversion_unit)

/-- Maximum of a list (`np.nanmax` on NaN-free data). -/
def listMax : List ℚ → ℚ
  | [] => 0
  | [x] => x
  | x :: y :: ys => max x (listMax (y :: ys))

/-- Minimum of a list (`np.nanmin` on NaN-free data). -/
def listMin : List ℚ → ℚ
  | [] => 0
  | [x] => x
  | x :: y :: ys => min x (listMin (y :: ys))

/-- Mean of a list (`np.nanmean` on NaN-free data); callers guard against
the empty list, on which NumPy produces NaN. -/
def listMeanQ (l : List ℚ) : ℚ := l.sum / l.length

/-- Embedding of the post-fit log10_IC50 corrections of `fit_curve_4pl`
(curve_fitting.py lines 144-157).  `minr`/`maxr` are the adjusted
`min_inhibition`/`max_inhibition`, `lic` the fitted `log10ic50_curve_fit`.
`inhibition.take (length - 2)` is `inhibition[:-2]`; NumPy's
`nanmean([]) < 5` is False, modelled by the nonemptiness conjunct. -/
def fit_curve_ic50_correction (minr maxr lic : ℚ) (log10con inhibition : List ℚ) : ℚ :=
  let maxd := listMax log10con
  let mind := listMin log10con
  let l1 := if minr ≥ maxr then maxd
            else if lic > maxd then maxd
            else if lic < mind then mind
            else lic
  let l2 := if listMax inhibition < 0 then maxd
            else if listMin inhibition > 100 then mind
            else l1
  let t := inhibition.take (inhibition.length - 2)
  if t ≠ [] ∧ listMeanQ t < 5 then maxd else l2

/-- C5's claimed behaviour, written from the claim's words: override to
`max log10_dose` when `min_result ≥ max_result`, when every response is
negative, or when the mean of all-but-last-two responses is below 5;
override to `min log10_dose` when every response exceeds 100; otherwise
clamp the fitted value into the dose range; overrides applied in sequence,
later writes winning.  (The mean condition is taken as false when fewer
than three responses exist, where the mean of the claim does not exist.) -/
def ic50_correction_claimed (minr maxr lic : ℚ) (log10con inhibition : List ℚ) : ℚ :=
  let maxd := listMax log10con
  let mind := listMin log10con
  let t := inhibition.take (inhibition.length - 2)
  let base := max mind (min maxd lic)
  let s1 := if minr ≥ maxr then maxd else base
  let s2 := if ∀ x ∈ inhibition, x < 0 then maxd else s1
  let s3 := if t ≠ [] ∧ listMeanQ t < 5 then maxd else s2
  if ∀ x ∈ inhibition, x > 100 then mind else s3

/-- Embedding of `_4pl` (curve_fitting.py lines 9-42), the four-parameter
logistic response; `10 ** x` is real exponentiation. -/
noncomputable def fourPL (log10_drug_con slope min_val max_val log10ic50 : ℝ) : ℝ :=
  min_val + (max_val - min_val) / (1 + (10 : ℝ) ^ (slope * (log10ic50 - log10_drug_con)))

/-- The refined-fit parameter values read by `XCal._calculate_ic50`
(`lmfit_fitted_model.params[...].value`). -/
structure RefinedParams where
  slope : ℝ
  min_val : ℝ
  log10ic50 : ℝ

/-- Embedding of `XCal._calculate_ic50` (cal.py lines 213-228): base value
`10 ** log10ic50 / conversion_unit`, then the four sequential overrides. -/
noncomputable def calculate_ic50 (p : RefinedParams) (conversion_unit maxC minC minInh maxInh : ℝ) : ℝ :=
  let ic0 := (10 : ℝ) ^ p.log10ic50 / conversion_unit
  let ic1 := if p.slope < 0 then maxC else ic0
  let ic2 := if p.min_val > 90 then minC else ic1
  let ic3 := if max minInh maxInh < 10 then maxC else ic2
  if minInh > 50 then minC else ic3

/-- C1's claimed IC50 resolution, written from the claim's words: the
`min_val > 90` override is claimed to go to the MAXIMUM tested
concentration. -/
noncomputable def ic50_claimed (p : RefinedParams) (conversion_unit maxC minC minInh maxInh : ℝ) : ℝ :=
  let ic0 := (10 : ℝ) ^ p.log10ic50 / conversion_unit
  let ic1 := if p.slope < 0 then maxC else ic0
  let ic2 := if p.min_val > 90 then maxC else ic1
  let ic3 := if max minInh maxInh < 10 then maxC else ic2
  if minInh > 50 then minC else ic3

open scoped Classical in
/-- Ordered override policy applied left to right, later writes winning
(the amended C1 stated as an explicit policy table). -/
noncomputable def applyOverrides (base : ℝ) : List (Prop × ℝ) → ℝ
  | [] => base
  | pr :: rest => applyOverrides (if pr.1 then pr.2 else base) rest

/-- C1 as amended: base value `10 ** log10ic50` in caller units, then, later
writes winning: max tested concentration when slope < 0; MINIMUM tested
concentration when fitted min_val > 90; max tested concentration when both
observed inhibition extremes are below 10; minimum tested concentration when
the minimum observed inhibition exceeds 50. -/
noncomputable def ic50_amended (p : RefinedParams) (conversion_unit maxC minC minInh maxInh : ℝ) : ℝ :=
  applyOverrides ((10 : ℝ) ^ p.log10ic50 / conversion_unit)
    [(p.slope < 0, maxC),
     (p.min_val > 90, minC),
     (max minInh maxInh < 10, maxC),
     (minInh > 50, minC)]

/-- Output of `fit_curve_4pl` in its return order (curve_fitting.py line
159): `(min_inhibition, max_inhibition, slope_curve_fit,
log10ic50_curve_fit)`. -/
structure FitCurveOut where
  min_inhibition : ℝ
  max_inhibition : ℝ
  slope : ℝ
  log10ic50 : ℝ

/-- Embedding of `XCal._initial_curve_fit` (cal.py lines 127-137): unpacks
the `fit_curve_4pl` tuple positionally (the variable NAMES there swap slope
and log10ic50, but positions flow through unchanged), bumps `max` by 0.001
when it equals `min`, and returns the same four positions. -/
noncomputable def initial_curve_fit (r : FitCurveOut) : ℝ × ℝ × ℝ × ℝ :=
  let max2 := if r.min_inhibition = r.max_inhibition then r.max_inhibition + 0.001
              else r.max_inhibition
  (r.min_inhibition, max2, r.slope, r.log10ic50)

/-- One lmfit parameter: initial value and box bounds (`min`/`max` renamed
`lo`/`hi`). -/
structure LmParam where
  value : ℝ
  lo : ℝ
  hi : ℝ

/-- The four lmfit parameters set up by `fit_lm_4pl`. -/
structure LmParams where
  slope : LmParam
  max_val : LmParam
  min_val : LmParam
  log10ic50 : LmParam

/-- Embedding of the parameter setup of `fit_lm_4pl` (curve_fitting.py
lines 202-216).  The tuple is unpacked there as `(min_inhibition,
max_inhibition, initial_log10ic50, initial_slope)`. -/
def fit_lm_params (log10con_min log10con_max : ℝ) (curve_fitted_values : ℝ × ℝ × ℝ × ℝ) :
    LmParams :=
  let min_inhibition := curve_fitted_values.1
  let max_inhibition := curve_fitted_values.2.1
  let initial_log10ic50 := curve_fitted_values.2.2.1
  let initial_slope := curve_fitted_values.2.2.2
  let min_max_val := min 90 (max_inhibition * 0.9)
  let max_min_val := max 10 (min_inhibition * 1.1)
  { slope := ⟨initial_slope, 0, 4⟩
    max_val := ⟨max_inhibition, min_max_val, 100⟩
    min_val := ⟨min_inhibition, 0, max_min_val⟩
    log10ic50 := ⟨initial_log10ic50, log10con_min, log10con_max⟩ }

/-- Result of one `lmfit_model.fit` call: fitted parameter values, the
residual array, and the (nullable) standard error of log10ic50. -/
structure LmFitResult where
  slope : ℝ
  min_val : ℝ
  max_val : ℝ
  log10ic50 : ℝ
  residual : List ℝ
  stderr : Option ℝ

/-- Population standard deviation, `np.std`. -/
noncomputable def npStd (l : List ℝ) : ℝ :=
  Real.sqrt ((l.map (fun x => (x - l.sum / l.length) ^ 2)).sum / l.length)

/-- Embedding of `fit_lm_4pl` (curve_fitting.py lines 200-242) with the
lmfit optimizer abstracted as `fitOracle`: first fit from the initial
parameters, second fit reseeded at `median(log10con)`, lower residual
standard deviation wins, and a final refit with slope bounds [0.1, 2.5]
and the initial log10ic50 seed when the kept slope is at most 0.2. -/
noncomputable def fit_lm_4pl (fitOracle : LmParams → LmFitResult)
    (log10con_min log10con_max log10con_median : ℝ)
    (curve_fitted_values : ℝ × ℝ × ℝ × ℝ) :
    LmFitResult × (ℝ × ℝ × Option ℝ × ℝ) :=
  let params := fit_lm_params log10con_min log10con_max curve_fitted_values
  let m1 := fitOracle params
  let params2 := { params with log10ic50 := { params.log10ic50 with value := log10con_median } }
  let m2 := fitOracle params2
  let s1 := npStd m1.residual
  let s2 := npStd m2.residual
  let kept := if s1 < s2 then m1 else m2
  let finalModel :=
    if kept.slope ≤ 0.2 then
      fitOracle
        { params2 with
          log10ic50 := { params2.log10ic50 with value := curve_fitted_values.2.2.1 }
          slope := { params2.slope with lo := 0.1, hi := 2.5 } }
    else kept
  (finalModel, (finalModel.min_val, finalModel.max_val, finalModel.stderr,
    npStd finalModel.residual))

/-- Sum of squared differences of paired entries. -/
def sqDiffSum (a b : List ℚ) : ℚ := ((a.zip b).map (fun p => (p.1 - p.2) ^ 2)).sum

/-- Sum of squared deviations from the mean. -/
def centeredSS (l : List ℚ) : ℚ := (l.map (fun x => (x - listMeanQ l) ^ 2)).sum

/-- Embedding of sklearn's `r2_score(y_true, y_pred)` including its
degenerate zero-variance convention. -/
def r2_score (y_true y_pred : List ℚ) : ℚ :=
  if centeredSS y_true = 0 then (if sqDiffSum y_true y_pred = 0 then 1 else 0)
  else 1 - sqDiffSum y_true y_pred / centeredSS y_true

/-- The R² of `quality_scores` (scores.py line 178): note the call is
`r2_score(fitted_values, original_values)`, fitted in the y_true slot. -/
def quality_r2 (original_values fitted_values : List ℚ) : ℚ :=
  r2_score fitted_values original_values

/-- The adjusted R² of `quality_scores` (scores.py lines 180-182) with
`k = 1`. -/
def quality_ar2 (original_values fitted_values : List ℚ) : ℚ :=
  1 - (1 - quality_r2 original_values fitted_values) *
    ((original_values.length : ℚ) - 1) / ((original_values.length : ℚ) - 1 - 1)

/-- Carrier for IEEE float values as used by NumPy inside `dss`: a finite
real (no overflow/rounding is modelled), two infinities (`inf true` is +∞)
and NaN. -/
inductive Fp where
  | nan : Fp
  | inf : Bool → Fp
  | fin : ℝ → Fp

/-- The `np.isnan` test. -/
def Fp.isnan : Fp → Bool
  | nan => true
  | _ => false

/-- IEEE `<`: any comparison involving NaN is false. -/
def Fp.lt : Fp → Fp → Prop
  | fin x, fin y => x < y
  | fin _, inf true => True
  | inf false, fin _ => True
  | inf false, inf true => True
  | _, _ => False

/-- IEEE `≤`: any comparison involving NaN is false. -/
def Fp.le : Fp → Fp → Prop
  | nan, _ => False
  | _, nan => False
  | inf false, _ => True
  | _, inf true => True
  | inf true, _ => False
  | fin x, fin y => x ≤ y
  | fin _, inf false => False

/-- IEEE `>`. -/
def Fp.gt (a b : Fp) : Prop := Fp.lt b a

/-- IEEE `≥`. -/
def Fp.ge (a b : Fp) : Prop := Fp.le b a

/-- IEEE `==`: false on NaN. -/
def Fp.eqv : Fp → Fp → Prop
  | fin x, fin y => x = y
  | inf a, inf b => a = b
  | _, _ => False

/-- IEEE negation. -/
def Fp.neg : Fp → Fp
  | nan => nan
  | inf b => inf !b
  | fin x => fin (-x)

/-- IEEE addition (∞ + −∞ = NaN). -/
noncomputable def Fp.add : Fp → Fp → Fp
  | nan, _ => nan
  | _, nan => nan
  | inf a, inf b => if a = b then inf a else nan
  | inf a, fin _ => inf a
  | fin _, inf b => inf b
  | fin x, fin y => fin (x + y)

/-- IEEE subtraction. -/
noncomputable def Fp.sub (a b : Fp) : Fp := Fp.add a (Fp.neg b)

open scoped Classical in
/-- IEEE multiplication (0 · ∞ = NaN). -/
noncomputable def Fp.mul : Fp → Fp → Fp
  | nan, _ => nan
  | _, nan => nan
  | inf a, inf b => inf (a == b)
  | inf a, fin y => if y = 0 then nan else if 0 < y then inf a else inf !a
  | fin x, inf b => if x = 0 then nan else if 0 < x then inf b else inf !b
  | fin x, fin y => fin (x * y)

open scoped Classical in
/-- IEEE division as NumPy performs it on `np.float64` scalars (warning,
not exception): x/0 is a signed infinity, 0/0 and ∞/∞ are NaN. -/
noncomputable def Fp.div : Fp → Fp → Fp
  | nan, _ => nan
  | _, nan => nan
  | inf _, inf _ => nan
  | inf a, fin y => if 0 ≤ y then inf a else inf !a
  | fin _, inf _ => fin 0
  | fin x, fin y =>
      if y = 0 then (if x = 0 then nan else if 0 < x then inf true else inf false)
      else fin (x / y)

open scoped Classical in
/-- The `np.log10` function: NaN on negative input, −∞ at 0. -/
noncomputable def Fp.log10 : Fp → Fp
  | nan => nan
  | inf true => inf true
  | inf false => nan
  | fin x => if x = 0 then inf false else if x < 0 then nan else fin (Real.logb 10 x)

open scoped Classical in
/-- The `np.log` (natural logarithm) function: NaN on negative input, −∞
at 0. -/
noncomputable def Fp.ln : Fp → Fp
  | nan => nan
  | inf true => inf true
  | inf false => nan
  | fin x => if x = 0 then inf false else if x < 0 then nan else fin (Real.log x)

/-- Rounding to two decimal places, `round(v, 2)` (ties modelled
half-up; only the preservation of [0, 100] matters below). -/
noncomputable def round2 (x : ℝ) : ℝ := (round (100 * x) : ℤ) / 100

/-- Rounding on the float carrier: NaN and infinities pass through, as in
Python. -/
noncomputable def Fp.round2F : Fp → Fp
  | nan => nan
  | inf b => inf b
  | fin x => fin (round2 x)

/-- Antiderivative of `_4pl` in its first argument (the closed form quoted
in the `dss` source comment), valid for nonzero slope. -/
noncomputable def fourPLAntideriv (slope d a c x : ℝ) : ℝ :=
  a * x + (a - d) * Real.log (1 + (10 : ℝ) ^ (slope * (c - x))) / (slope * Real.log 10)

open scoped Classical in
/-- Model of `spi.quad(_4pl, x1, x2, args=(slope, d, a, c))[0]`
(scores.py line 308): the adaptive quadrature is replaced by the exact
integral of `_4pl` (equal bounds give exactly 0, as scipy returns);
non-finite bounds or parameters give NaN. -/
noncomputable def quad4pl : Fp → Fp → Fp → Fp → Fp → Fp → Fp
  | Fp.fin x1, Fp.fin x2, Fp.fin s, Fp.fin d, Fp.fin a, Fp.fin c =>
      if x1 = x2 then Fp.fin 0
      else if s = 0 then Fp.fin ((d + (a - d) / 2) * (x2 - x1))
      else Fp.fin (fourPLAntideriv s d a c x2 - fourPLAntideriv s d a c x1)
  | _, _, _, _, _, _ => Fp.nan

open scoped Classical in
/-- The `x1` computation of `dss` (scores.py lines 295-303): analytic
inversion of the logistic at response level `y`, clamped into
[`min_con`, `x2`]; `min_con` when `y == 0`. -/
noncomputable def dssX1 (y c a b min_con x2 : Fp) : Fp :=
  if ¬ Fp.eqv y (Fp.fin 0) then
    let t := Fp.sub c (Fp.div (Fp.sub (Fp.ln (Fp.sub a y)) (Fp.ln (Fp.sub y (Fp.fin 0))))
      (Fp.mul b (Fp.fin (Real.log 10))))
    if Fp.lt t min_con then min_con else if Fp.gt t x2 then x2 else t
  else min_con

open scoped Classical in
/-- The `norm_area` computation of `dss` (scores.py lines 312-321), one
branch per `dss_type`; 0 for any other selector (the Python initial
value). -/
noncomputable def dssNormArea (dss_type : ℕ) (int_y total_area a x1 x2 min_con : Fp) : Fp :=
  if dss_type = 1 then Fp.mul (Fp.div int_y total_area) (Fp.fin 100)
  else if dss_type = 2 then
    let na := Fp.div (Fp.mul (Fp.div int_y total_area) (Fp.fin 100)) (Fp.log10 a)
    if Fp.gt na (Fp.fin 50) then Fp.fin 0 else na
  else if dss_type = 3 then
    Fp.mul (Fp.mul (Fp.mul (Fp.div int_y total_area) (Fp.fin 100))
      (Fp.div (Fp.log10 (Fp.fin 100)) (Fp.log10 a)))
      (Fp.div (Fp.sub x2 x1) (Fp.sub x2 min_con))
  else Fp.fin 0

open scoped Classical in
/-- The final guard of `dss` (scores.py lines 323-326): 0 outside [0, 100],
otherwise `round(norm_area, 2)`. -/
noncomputable def dssFinalize (norm_area : Fp) : Option Fp :=
  if Fp.lt norm_area (Fp.fin 0) ∨ Fp.gt norm_area (Fp.fin 100) then some (Fp.fin 0)
  else some (Fp.round2F norm_area)

open scoped Classical in
/-- Embedding of `dss` (scores.py lines 261-329) over the float carrier;
`none` is Python `None`, `dss_type` is the variant selector. -/
noncomputable def dss (ic50 slope max_val min_con_tested max_con_tested y : Fp)
    (dss_type : ℕ) (con_scale : Fp) : Option Fp :=
  let a0 := max_val
  let b0 := slope
  let min_con := Fp.log10 (Fp.mul min_con_tested con_scale)
  let max_con := max_con_tested
  let x2 := Fp.log10 (Fp.mul max_con con_scale)
  if Fp.isnan ic50 || Fp.isnan b0 || Fp.isnan a0 || Fp.isnan min_con || Fp.isnan max_con then
    none
  else if Fp.ge ic50 max_con then some (Fp.fin 0)
  else if Fp.eqv b0 (Fp.fin 0) then some (Fp.fin 0)
  else
    let a := if Fp.gt a0 (Fp.fin 100) then Fp.fin 100 else a0
    let b := if Fp.lt b0 (Fp.fin 0) then Fp.neg b0 else b0
    let c := Fp.log10 (Fp.mul ic50 con_scale)
    if Fp.gt a y then
      let x1 := dssX1 y c a b min_con x2
      let area := quad4pl x1 x2 slope (Fp.fin 0) a c
      let int_y := Fp.sub area (Fp.mul y (Fp.sub x2 x1))
      let total_area := Fp.mul (Fp.sub x2 min_con) (Fp.sub (Fp.fin 100) y)
      dssFinalize (dssNormArea dss_type int_y total_area a x1 x2 min_con)
    else some (Fp.fin 0)

theorem addIncrements_length (k : ℕ) (l : List DRRecord) :
    (addIncrements k l).length = l.length := by
  induction l generalizing k with
  | nil => rfl
  | cons r rs ih => simp [addIncrements, ih]

theorem addIncrements_getElem (k : ℕ) (l : List DRRecord) (i : ℕ) :
    (addIncrements k l)[i]? = (l[i]?).map
      (fun r => { r with inhibition := r.inhibition + ((k + i : ℕ) : ℚ) / 100 }) := by
  induction l generalizing k i with
  | nil => simp [addIncrements]
  | cons r rs ih =>
    cases i with
    | zero => simp [addIncrements]
    | succ n =>
      simp only [addIncrements, List.getElem?_cons_succ]
      rw [ih]
      have hk : k + 1 + n = k + (n + 1) := by omega
      rw [hk]

theorem addIncrements_conc (k : ℕ) (l : List DRRecord) :
    (addIncrements k l).map (fun r => r.drug_concentration) =
      l.map (fun r => r.drug_concentration) := by
  induction l generalizing k with
  | nil => rfl
  | cons r rs ih => simp [addIncrements, ih]

theorem dedupStep_length (l : List DRRecord) : (dedupStep l).length = l.length := by
  unfold dedupStep
  split
  · rfl
  · exact addIncrements_length 0 l

theorem pairwise_of_map_conc : ∀ (l : List DRRecord),
    List.Pairwise (fun a b : ℚ => a ≤ b) (l.map (fun r => r.drug_concentration)) →
    List.Pairwise recLE l := by
  intro l
  induction l with
  | nil => intro _; exact List.Pairwise.nil
  | cons r rs ih =>
    intro h
    rw [List.map_cons, List.pairwise_cons] at h
    refine List.Pairwise.cons ?_ (ih h.2)
    intro b hb
    exact h.1 _ (List.mem_map_of_mem _ hb)

theorem sortedFrame_ok (conc inh : List ℚ) (S : List DRRecord)
    (h : sortedFrame conc inh = Except.ok S) : List.Pairwise recLE S := by
  unfold sortedFrame at h
  split at h
  · exact absurd h (by simp)
  · cases h
    exact List.sorted_insertionSort recLE _

/-- C7: frame preparation raises InvalidInput when the concentration and
response arrays have different lengths, and unit conversion rejects any
unit outside the five-element set while mapping the valid units to the
factors 1, 1e-3, 1e-6, 1e-9, 1e-12. -/
theorem unit_conversion_and_length_check :
    (unit_conversion ("Molar") = Except.ok 1
      ∧ unit_conversion ("Millimolar") = Except.ok (1 / 1000)
      ∧ unit_conversion ("Micromolar") = Except.ok (1 / 1000000)
      ∧ unit_conversion ("Nanomolar") = Except.ok (1 / 1000000000)
      ∧ unit_conversion ("Picomolar") = Except.ok (1 / 1000000000000))
    ∧ (∀ u : String, u ∉ validUnits → unit_conversion u = Except.error PrepError.invalidInput)
    ∧ (∀ conc inh : List ℚ, conc.length ≠ inh.length →
        create_df conc inh = Except.error PrepError.invalidInput) := by
  refine ⟨⟨rfl, rfl, rfl, rfl, rfl⟩, ?_, ?_⟩
  · intro u hu
    unfold unit_conversion
    rw [if_neg hu]
  · intro conc inh h
    unfold create_df sortedFrame
    rw [if_pos h]
    rfl

/-- Witness for C7 at the unit name Femtomolar and a 2-vs-1 length
mismatch. -/
theorem unit_conversion_and_length_check_witness :
    ("Femtomolar" ∉ validUnits
      ∧ unit_conversion ("Femtomolar") = Except.error PrepError.invalidInput)
    ∧ (([1, 2] : List ℚ).length ≠ ([5] : List ℚ).length
      ∧ create_df [1, 2] [5] = Except.error PrepError.invalidInput) :=
  ⟨⟨by decide, unit_conversion_and_length_check.2.1 _ (by decide)⟩,
   ⟨by decide, unit_conversion_and_length_check.2.2 _ _ (by decide)⟩⟩

/-- C8: every frame produced by `create_df` is sorted ascending by
concentration, and the log10dose column of every record equals
log10(concentration times the unit factor). -/
theorem frame_sorted_log10 :
    ∀ (conc inh : List ℚ) (u : ℝ) (frame : List DRRecord),
      create_df conc inh = Except.ok frame →
      List.Pairwise recLE frame
      ∧ ∀ r ∈ frame, log10dose u r = Real.logb 10 ((r.drug_concentration : ℝ) * u) := by
  intro conc inh u frame h
  refine ⟨?_, fun r _ => rfl⟩
  unfold create_df at h
  cases hs : sortedFrame conc inh with
  | error e => rw [hs] at h; exact absurd h (by simp [Except.map])
  | ok S =>
    rw [hs] at h
    simp only [Except.map] at h
    cases h
    have hP : List.Pairwise recLE S := sortedFrame_ok conc inh S hs
    have h1 : List.Pairwise (fun a b : ℚ => a ≤ b)
        (S.map (fun r => r.drug_concentration)) :=
      hP.map (fun r : DRRecord => r.drug_concentration) (fun _ _ hab => hab)
    unfold dedupStep
    split
    · exact hP
    · rw [← addIncrements_conc 0 S] at h1
      exact pairwise_of_map_conc _ h1

/-- Witness for C8 on the two-point frame with concentrations [2, 1]. -/
theorem frame_sorted_log10_witness :
    create_df [2, 1] [5, 6] = Except.ok [⟨1, 6⟩, ⟨2, 5⟩]
    ∧ (List.Pairwise recLE [⟨1, 6⟩, ⟨2, 5⟩]
      ∧ ∀ r ∈ [(⟨1, 6⟩ : DRRecord), ⟨2, 5⟩],
          log10dose 1 r = Real.logb 10 ((r.drug_concentration : ℝ) * 1)) :=
  ⟨rfl, frame_sorted_log10 [2, 1] [5, 6] 1 [⟨1, 6⟩, ⟨2, 5⟩] rfl⟩


/-- Counterexample for C6: on concentrations [1, 2, 3] with responses
[1.01, 1, 1] the tie-break produces responses [1.01, 1.01, 1.02] — the
output contains two records with exactly equal response values, refuting
the claimed invariant. -/
theorem create_df_duplicate_counterexample :
    create_df [1, 2, 3] [101 / 100, 1, 1]
      = Except.ok [⟨1, 101 / 100⟩, ⟨2, 101 / 100⟩, ⟨3, 51 / 50⟩]
    ∧ ((⟨1, 101 / 100⟩ : DRRecord).inhibition = (⟨2, 101 / 100⟩ : DRRecord).inhibition) := by
  constructor
  · norm_num [create_df, sortedFrame, dedupStep, addIncrements, List.insertionSort,
      List.orderedInsert, recLE, Except.map, List.Nodup]
  · rfl

/-- C6 as amended: the 0.01-per-index tie-break guarantees that any two
records whose responses in the concentration-sorted frame were exactly
equal end up with distinct responses (original value plus 0.01 times the
record's index); full pairwise distinctness of the output is not
guaranteed, since an originally distinct response can collide with an
offset one. -/
theorem create_df_tiebreak_amended :
    ∀ (conc inh : List ℚ) (S : List DRRecord) (i j : ℕ) (ri rj : DRRecord),
      sortedFrame conc inh = Except.ok S →
      i ≠ j → S[i]? = some ri → S[j]? = some rj →
      ri.inhibition = rj.inhibition →
      create_df conc inh = Except.ok (dedupStep S)
      ∧ ((dedupStep S)[i]?).map (fun r => r.inhibition)
          = some (ri.inhibition + (i : ℚ) / 100)
      ∧ ((dedupStep S)[j]?).map (fun r => r.inhibition)
          = some (rj.inhibition + (j : ℚ) / 100)
      ∧ ri.inhibition + (i : ℚ) / 100 ≠ rj.inhibition + (j : ℚ) / 100 := by
  intro conc inh S i j ri rj hs hij hgi hgj heq
  obtain ⟨hi, hgi2⟩ := List.getElem?_eq_some.mp hgi
  obtain ⟨hj, hgj2⟩ := List.getElem?_eq_some.mp hgj
  have hdup : ¬ (S.map (fun r => r.inhibition)).Nodup := by
    intro hnd
    have hmi : i < (S.map (fun r => r.inhibition)).length := by simpa using hi
    have hmj : j < (S.map (fun r => r.inhibition)).length := by simpa using hj
    have hv : (S.map (fun r => r.inhibition)).get ⟨i, hmi⟩
        = (S.map (fun r => r.inhibition)).get ⟨j, hmj⟩ := by
      simp only [List.get_eq_getElem, List.getElem_map]
      rw [hgi2, hgj2, heq]
    have := hnd.get_inj_iff.mp hv
    exact hij (by simpa using congrArg Fin.val this)
  have hds : dedupStep S = addIncrements 0 S := by
    unfold dedupStep
    rw [if_neg hdup]
  refine ⟨by unfold create_df; rw [hs]; rfl, ?_, ?_, ?_⟩
  · rw [hds, addIncrements_getElem, hgi]
    simp
  · rw [hds, addIncrements_getElem, hgj]
    simp
  · intro hcon
    rw [heq] at hcon
    have h2 : (i : ℚ) / 100 = (j : ℚ) / 100 := by linarith
    have h3 : (i : ℚ) = (j : ℚ) := by
      field_simp at h2
      exact_mod_cast h2
    exact hij (by exact_mod_cast h3)

/-- Witness for C6's amended theorem: the frame [(1, 7), (2, 7)] has its
two equal responses separated into 7 and 7.01. -/
theorem create_df_tiebreak_amended_witness :
    create_df [1, 2] [7, 7] = Except.ok (dedupStep [⟨1, 7⟩, ⟨2, 7⟩])
    ∧ ((dedupStep [⟨1, 7⟩, ⟨2, 7⟩])[0]?).map (fun r => r.inhibition)
        = some ((⟨1, 7⟩ : DRRecord).inhibition + ((0 : ℕ) : ℚ) / 100)
    ∧ ((dedupStep [⟨1, 7⟩, ⟨2, 7⟩])[1]?).map (fun r => r.inhibition)
        = some ((⟨2, 7⟩ : DRRecord).inhibition + ((1 : ℕ) : ℚ) / 100)
    ∧ (⟨1, 7⟩ : DRRecord).inhibition + ((0 : ℕ) : ℚ) / 100
        ≠ (⟨2, 7⟩ : DRRecord).inhibition + ((1 : ℕ) : ℚ) / 100 :=
  create_df_tiebreak_amended [1, 2] [7, 7] [⟨1, 7⟩, ⟨2, 7⟩] 0 1 ⟨1, 7⟩ ⟨2, 7⟩ rfl
    (by decide) rfl rfl rfl

/-- Counterexample for C1: with refined slope 1, min_val 95, log10ic50 -8,
conversion unit 1, tested range [1, 100] and observed inhibition range
[20, 60], the code resolves IC50 to the MINIMUM tested concentration 1,
while the claim's reading (min_val > 90 overrides to the maximum tested
concentration) yields 100. -/
theorem ic50_minval_override_counterexample :
    calculate_ic50 ⟨1, 95, -8⟩ 1 100 1 20 60 = 1
    ∧ ic50_claimed ⟨1, 95, -8⟩ 1 100 1 20 60 = 100
    ∧ (1 : ℝ) ≠ 100 := by
  have hmax : max (20 : ℝ) 60 = 60 := by norm_num
  refine ⟨?_, ?_, by norm_num⟩
  · simp only [calculate_ic50]
    rw [if_neg (by norm_num), if_neg (by rw [hmax]; norm_num), if_pos (by norm_num)]
  · simp only [ic50_claimed]
    rw [if_neg (by norm_num), if_neg (by rw [hmax]; norm_num), if_pos (by norm_num)]

/-- C1 as amended: the resolved IC50 equals 10^log10_IC50 in caller units,
overridden in order with later writes winning: max tested concentration
when slope < 0; MINIMUM tested concentration when fitted min_val > 90; max
tested concentration when both observed inhibition extremes are below 10;
minimum tested concentration when the minimum observed inhibition exceeds
50 — stated as an explicit ordered override table. -/
theorem ic50_resolution_amended :
    ∀ (p : RefinedParams) (conversion_unit maxC minC minInh maxInh : ℝ),
      calculate_ic50 p conversion_unit maxC minC minInh maxInh
        = ic50_amended p conversion_unit maxC minC minInh maxInh := by
  intro p cu maxC minC minInh maxInh
  simp only [calculate_ic50, ic50_amended, applyOverrides]

/-- C2 evaluated at a failing input (code bug): when the Initial Bounded
Fit returns (min = 0, max = 100, slope = 3/2, log10_IC50 = -7) in
`fit_curve_4pl`'s documented order, `_initial_curve_fit` relabels the last
two positions, so the refined fit's log10ic50 parameter starts at 3/2 (the
SLOPE estimate) and its slope parameter starts at -7 (the log10_IC50
estimate) — not, as the claim and the functions' own names state, the
other way round. -/
theorem refined_fit_seed_swapped :
    (fit_lm_params (-9) (-5) (initial_curve_fit ⟨0, 100, 3 / 2, -7⟩)).log10ic50.value = 3 / 2
    ∧ (fit_lm_params (-9) (-5) (initial_curve_fit ⟨0, 100, 3 / 2, -7⟩)).slope.value = -7
    ∧ ((3 : ℝ) / 2) ≠ -7 := by
  refine ⟨?_, ?_, by norm_num⟩
  · simp only [fit_lm_params, initial_curve_fit]
  · simp only [fit_lm_params, initial_curve_fit]

theorem sqDiffSum_comm : ∀ (a b : List ℚ), sqDiffSum a b = sqDiffSum b a := by
  intro a
  induction a with
  | nil => intro b; cases b <;> rfl
  | cons x xs ih =>
    intro b
    cases b with
    | nil => rfl
    | cons y ys =>
      simp only [sqDiffSum, List.zip_cons_cons, List.map_cons, List.sum_cons] at *
      rw [ih ys]
      ring_nf

/-- C10: `quality_scores` computes R² with the fitted values in the
reference slot — R² = 1 − Σ(observed − fitted)² / Σ(fitted − mean
fitted)² — and adjusted R² = 1 − (1 − R²)(n − 1)/(n − 2). -/
theorem quality_r2_reference_position :
    ∀ (original fitted : List ℚ),
      original.length = fitted.length → 3 ≤ original.length →
      centeredSS fitted ≠ 0 →
      quality_r2 original fitted
        = 1 - sqDiffSum original fitted / centeredSS fitted
      ∧ quality_ar2 original fitted
        = 1 - (1 - quality_r2 original fitted) * ((original.length : ℚ) - 1)
            / ((original.length : ℚ) - 2) := by
  intro o f hlen hn hc
  constructor
  · unfold quality_r2 r2_score
    rw [if_neg hc, sqDiffSum_comm]
  · unfold quality_ar2
    have h2 : ((o.length : ℚ) - 1 - 1) = (o.length : ℚ) - 2 := by ring
    rw [h2]

/-- Witness for C10 on observed [1, 2, 3] and fitted [2, 4, 9]. -/
theorem quality_r2_reference_position_witness :
    (([1, 2, 3] : List ℚ).length = ([2, 4, 9] : List ℚ).length
      ∧ 3 ≤ ([1, 2, 3] : List ℚ).length
      ∧ centeredSS [2, 4, 9] ≠ 0)
    ∧ (quality_r2 [1, 2, 3] [2, 4, 9]
        = 1 - sqDiffSum [1, 2, 3] [2, 4, 9] / centeredSS [2, 4, 9]
      ∧ quality_ar2 [1, 2, 3] [2, 4, 9]
        = 1 - (1 - quality_r2 [1, 2, 3] [2, 4, 9]) * ((([1, 2, 3] : List ℚ).length : ℚ) - 1)
            / ((([1, 2, 3] : List ℚ).length : ℚ) - 2)) :=
  ⟨⟨rfl, by norm_num, by norm_num [centeredSS, listMeanQ]⟩,
   quality_r2_reference_position [1, 2, 3] [2, 4, 9] rfl (by norm_num)
     (by norm_num [centeredSS, listMeanQ])⟩

/-- Counterexample for C9: with slope 1 (≥ 0) but min_val 1 > max_val 0,
the 4PL response DECREASES in log10_dose (value 1/11 at x = 1 versus 1/2
at x = 0), refuting monotone non-decrease for all real min_val, max_val. -/
theorem fourPL_monotone_counterexample :
    fourPL 1 1 1 0 0 < fourPL 0 1 1 0 0 := by
  unfold fourPL
  have e0 : (1 : ℝ) * (0 - 0) = 0 := by ring
  have e1 : (1 : ℝ) * (0 - 1) = -1 := by ring
  rw [e0, e1, Real.rpow_zero, Real.rpow_neg_one]
  norm_num

/-- C9 as amended: the 4PL response is monotone non-decreasing in
log10_dose whenever slope ≥ 0 AND min_val ≤ max_val, and for every slope
≥ 0 and all real min_val, max_val its value lies within
[min min_val max_val, max min_val max_val]. -/
theorem fourPL_monotone_bounds_amended :
    (∀ (s minv maxv c x1 x2 : ℝ), 0 ≤ s → minv ≤ maxv → x1 ≤ x2 →
      fourPL x1 s minv maxv c ≤ fourPL x2 s minv maxv c)
    ∧ (∀ (s minv maxv c x : ℝ), 0 ≤ s →
      min minv maxv ≤ fourPL x s minv maxv c ∧ fourPL x s minv maxv c ≤ max minv maxv) := by
  constructor
  · intro s minv maxv c x1 x2 hs hmm hx
    unfold fourPL
    have hp1 : (0 : ℝ) < (10 : ℝ) ^ (s * (c - x1)) := Real.rpow_pos_of_pos (by norm_num) _
    have hp2 : (0 : ℝ) < (10 : ℝ) ^ (s * (c - x2)) := Real.rpow_pos_of_pos (by norm_num) _
    have hexp : s * (c - x2) ≤ s * (c - x1) :=
      mul_le_mul_of_nonneg_left (by linarith) hs
    have h10 : (10 : ℝ) ^ (s * (c - x2)) ≤ (10 : ℝ) ^ (s * (c - x1)) :=
      Real.rpow_le_rpow_of_exponent_le (by norm_num) hexp
    gcongr
    linarith
  · intro s minv maxv c x hs
    unfold fourPL
    have hp : (0 : ℝ) < (10 : ℝ) ^ (s * (c - x)) := Real.rpow_pos_of_pos (by norm_num) _
    have hD : (1 : ℝ) < 1 + (10 : ℝ) ^ (s * (c - x)) := by linarith
    have hDpos : (0 : ℝ) < 1 + (10 : ℝ) ^ (s * (c - x)) := by linarith
    set D := 1 + (10 : ℝ) ^ (s * (c - x)) with hDdef
    have hinvpos : 0 < D⁻¹ := inv_pos.mpr hDpos
    have hinvle : D⁻¹ ≤ 1 := by
      rw [inv_le_one_iff₀]
      right
      linarith
    rw [div_eq_mul_inv]
    rcases le_total minv maxv with h | h
    · rw [min_eq_left h, max_eq_right h]
      constructor
      · nlinarith
      · nlinarith
    · rw [min_eq_right h, max_eq_left h]
      constructor
      · nlinarith
      · nlinarith

/-- Witness for C9's amended theorem at slope 1, min_val 0, max_val 100,
log10ic50 2, between doses 0 and 1 and at dose 5. -/
theorem fourPL_monotone_bounds_amended_witness :
    ((0 : ℝ) ≤ 1 ∧ (0 : ℝ) ≤ 100 ∧ (0 : ℝ) ≤ 1)
    ∧ fourPL 0 1 0 100 2 ≤ fourPL 1 1 0 100 2
    ∧ min (0 : ℝ) 100 ≤ fourPL 5 1 0 100 2
    ∧ fourPL 5 1 0 100 2 ≤ max (0 : ℝ) 100 :=
  ⟨⟨by norm_num, by norm_num, by norm_num⟩,
   fourPL_monotone_bounds_amended.1 1 0 100 2 0 1 (by norm_num) (by norm_num) (by norm_num),
   (fourPL_monotone_bounds_amended.2 1 0 100 2 5 (by norm_num)).1,
   (fourPL_monotone_bounds_amended.2 1 0 100 2 5 (by norm_num)).2⟩

theorem le_listMax : ∀ (l : List ℚ), ∀ x ∈ l, x ≤ listMax l := by
  intro l
  induction l with
  | nil => simp
  | cons a t ih =>
    intro x hx
    cases t with
    | nil =>
      rw [List.mem_singleton] at hx
      rw [hx]
      rfl
    | cons b u =>
      rcases List.mem_cons.mp hx with h | h
      · rw [h]
        exact le_max_left _ _
      · exact le_trans (ih x h) (le_max_right _ _)

theorem listMin_le : ∀ (l : List ℚ), ∀ x ∈ l, listMin l ≤ x := by
  intro l
  induction l with
  | nil => simp
  | cons a t ih =>
    intro x hx
    cases t with
    | nil =>
      rw [List.mem_singleton] at hx
      rw [hx]
      rfl
    | cons b u =>
      rcases List.mem_cons.mp hx with h | h
      · rw [h]
        exact min_le_left _ _
      · exact le_trans (min_le_right _ _) (ih x h)

theorem listMax_lt_iff (c : ℚ) : ∀ (l : List ℚ), l ≠ [] → (listMax l < c ↔ ∀ x ∈ l, x < c) := by
  intro l
  induction l with
  | nil => intro h; exact absurd rfl h
  | cons a t ih =>
    intro _
    cases t with
    | nil => simp [listMax]
    | cons b u =>
      rw [show listMax (a :: b :: u) = max a (listMax (b :: u)) from rfl, max_lt_iff]
      rw [ih (by simp)]
      simp only [List.mem_cons]
      constructor
      · rintro ⟨h1, h2⟩ x hx
        rcases hx with h | h
        · rw [h]; exact h1
        · exact h2 x (by simpa using h)
      · intro h
        exact ⟨h a (Or.inl rfl), fun x hx => h x (Or.inr hx)⟩

theorem lt_listMin_iff (c : ℚ) : ∀ (l : List ℚ), l ≠ [] → (c < listMin l ↔ ∀ x ∈ l, c < x) := by
  intro l
  induction l with
  | nil => intro h; exact absurd rfl h
  | cons a t ih =>
    intro _
    cases t with
    | nil => simp [listMin]
    | cons b u =>
      rw [show listMin (a :: b :: u) = min a (listMin (b :: u)) from rfl, lt_min_iff]
      rw [ih (by simp)]
      simp only [List.mem_cons]
      constructor
      · rintro ⟨h1, h2⟩ x hx
        rcases hx with h | h
        · rw [h]; exact h1
        · exact h2 x (by simpa using h)
      · intro h
        exact ⟨h a (Or.inl rfl), fun x hx => h x (Or.inr hx)⟩

theorem listMin_le_listMax (l : List ℚ) (h : l ≠ []) : listMin l ≤ listMax l := by
  cases l with
  | nil => exact absurd rfl h
  | cons a t =>
    exact le_trans (listMin_le _ a (List.mem_cons_self a t)) (le_listMax _ a (List.mem_cons_self a t))

theorem listMeanQ_gt_of_all_gt (l : List ℚ) (h : l ≠ []) (hall : ∀ x ∈ l, (100 : ℚ) < x) :
    (5 : ℚ) < listMeanQ l := by
  have hsum : (100 : ℚ) * l.length ≤ l.sum := by
    clear h
    induction l with
    | nil => simp
    | cons a t ih =>
      have ha := hall a (List.mem_cons_self a t)
      have ht : ∀ x ∈ t, (100 : ℚ) < x := fun x hx => hall x (List.mem_cons_of_mem a hx)
      have := ih ht
      simp only [List.sum_cons, List.length_cons]
      push_cast
      linarith
  have hlen : (0 : ℚ) < l.length := by
    cases l with
    | nil => exact absurd rfl h
    | cons a t => exact_mod_cast Nat.succ_pos t.length
  unfold listMeanQ
  rw [lt_div_iff₀ hlen]
  nlinarith

/-- C5: the Initial Bounded Fit's post-fit log10_IC50 corrections match
the claim's ordered override description (max dose boundary for
min_result ≥ max_result, all-negative responses, or low all-but-last-two
mean; min dose boundary for all-above-100 responses; clamping otherwise),
for nonempty dose and response lists. -/
theorem initial_fit_ic50_correction_spec :
    ∀ (minr maxr lic : ℚ) (log10con inhibition : List ℚ),
      log10con ≠ [] → inhibition ≠ [] →
      fit_curve_ic50_correction minr maxr lic log10con inhibition
        = ic50_correction_claimed minr maxr lic log10con inhibition := by
  intro minr maxr lic lc inh hlc hinh
  unfold fit_curve_ic50_correction ic50_correction_claimed
  simp only
  have hmm : listMin lc ≤ listMax lc := listMin_le_listMax lc hlc
  have hmaxiff := listMax_lt_iff 0 inh hinh
  have hminiff := lt_listMin_iff 100 inh hinh
  obtain ⟨a0, ha0⟩ : ∃ a, a ∈ inh := by
    cases inh with
    | nil => exact absurd rfl hinh
    | cons a t => exact ⟨a, List.mem_cons_self a t⟩
  by_cases hA : ∀ x ∈ inh, (100 : ℚ) < x
  · have h1 : ¬ listMax inh < 0 := by
      intro hcon
      have := hmaxiff.mp hcon a0 ha0
      have := hA a0 ha0
      linarith
    have h2 : listMin inh > 100 := hminiff.mpr hA
    have h3 : ¬ (inh.take (inh.length - 2) ≠ [] ∧ listMeanQ (inh.take (inh.length - 2)) < 5) := by
      rintro ⟨ht, hm⟩
      have hall2 : ∀ x ∈ inh.take (inh.length - 2), (100 : ℚ) < x :=
        fun x hx => hA x (List.take_subset _ _ hx)
      have := listMeanQ_gt_of_all_gt _ ht hall2
      linarith
    rw [if_neg h3, if_neg h1, if_pos h2, if_pos hA]
  · have h2 : ¬ listMin inh > 100 := fun h => hA (hminiff.mp h)
    rw [if_neg hA]
    by_cases hm : (inh.take (inh.length - 2) ≠ [] ∧ listMeanQ (inh.take (inh.length - 2)) < 5)
    · rw [if_pos hm, if_pos hm]
    · rw [if_neg hm, if_neg hm]
      by_cases hneg : ∀ x ∈ inh, x < 0
      · rw [if_pos (hmaxiff.mpr hneg), if_pos hneg]
      · rw [if_neg (fun h => hneg (hmaxiff.mp h)), if_neg hneg, if_neg h2]
        by_cases hmr : minr ≥ maxr
        · rw [if_pos hmr, if_pos hmr]
        · rw [if_neg hmr, if_neg hmr]
          by_cases hgt : lic > listMax lc
          · rw [if_pos hgt]
            rw [min_eq_left (le_of_lt hgt), max_eq_right hmm]
          · rw [if_neg hgt]
            by_cases hlt : lic < listMin lc
            · rw [if_pos hlt]
              rw [min_eq_right (le_of_not_lt hgt), max_eq_left (le_of_lt hlt)]
            · rw [if_neg hlt]
              rw [min_eq_right (le_of_not_lt hgt), max_eq_right (le_of_not_lt hlt)]

/-- Witness for C5 on doses [-9, -5] and responses [10, 20, 30]. -/
theorem initial_fit_ic50_correction_spec_witness :
    (([-9, -5] : List ℚ) ≠ [] ∧ ([10, 20, 30] : List ℚ) ≠ [])
    ∧ fit_curve_ic50_correction 0 100 1 [-9, -5] [10, 20, 30]
        = ic50_correction_claimed 0 100 1 [-9, -5] [10, 20, 30] :=
  ⟨⟨by decide, by decide⟩,
   initial_fit_ic50_correction_spec 0 100 1 [-9, -5] [10, 20, 30] (by decide) (by decide)⟩

theorem Fp.mul_fin (x y : ℝ) : Fp.mul (Fp.fin x) (Fp.fin y) = Fp.fin (x * y) := rfl

theorem Fp.sub_fin (x y : ℝ) : Fp.sub (Fp.fin x) (Fp.fin y) = Fp.fin (x - y) := by
  simp [Fp.sub, Fp.add, Fp.neg, sub_eq_add_neg]

open scoped Classical in
theorem Fp.div_fin (x y : ℝ) (h : y ≠ 0) : Fp.div (Fp.fin x) (Fp.fin y) = Fp.fin (x / y) := by
  show (if y = 0 then (if x = 0 then Fp.nan else if 0 < x then Fp.inf true else Fp.inf false)
    else Fp.fin (x / y)) = Fp.fin (x / y)
  rw [if_neg h]

open scoped Classical in
theorem Fp.div_zero_zero : Fp.div (Fp.fin 0) (Fp.fin 0) = Fp.nan := by
  show (if (0 : ℝ) = 0 then (if (0 : ℝ) = 0 then Fp.nan else if (0 : ℝ) < 0 then Fp.inf true
    else Fp.inf false) else Fp.fin (0 / 0)) = Fp.nan
  rw [if_pos rfl, if_pos rfl]

open scoped Classical in
theorem Fp.log10_fin_pos (x : ℝ) (h : 0 < x) :
    Fp.log10 (Fp.fin x) = Fp.fin (Real.logb 10 x) := by
  show (if x = 0 then Fp.inf false else if x < 0 then Fp.nan else Fp.fin (Real.logb 10 x))
    = Fp.fin (Real.logb 10 x)
  rw [if_neg (ne_of_gt h), if_neg (not_lt.mpr h.le)]

open scoped Classical in
theorem Fp.ln_fin_pos (x : ℝ) (h : 0 < x) : Fp.ln (Fp.fin x) = Fp.fin (Real.log x) := by
  show (if x = 0 then Fp.inf false else if x < 0 then Fp.nan else Fp.fin (Real.log x))
    = Fp.fin (Real.log x)
  rw [if_neg (ne_of_gt h), if_neg (not_lt.mpr h.le)]

theorem round2_mem (x : ℝ) (h0 : 0 ≤ x) (h1 : x ≤ 100) : 0 ≤ round2 x ∧ round2 x ≤ 100 := by
  unfold round2
  constructor
  · apply div_nonneg _ (by norm_num)
    have h2 : (0 : ℤ) ≤ round (100 * x) := by
      rw [round_eq]
      exact Int.floor_nonneg.mpr (by linarith)
    exact_mod_cast h2
  · rw [div_le_iff₀ (by norm_num : (0 : ℝ) < 100)]
    have h2 : ((round (100 * x) : ℤ) : ℝ) ≤ 100 * x + 1 / 2 := by
      rw [round_eq]
      exact Int.floor_le _
    have h3 : (round (100 * x) : ℤ) < 10001 := by
      have h4 : ((round (100 * x) : ℤ) : ℝ) < 10001 := by linarith
      exact_mod_cast h4
    have h5 : (round (100 * x) : ℤ) ≤ 10000 := by omega
    have h6 : ((round (100 * x) : ℤ) : ℝ) ≤ 10000 := by exact_mod_cast h5
    linarith

theorem dssFinalize_cases (n : Fp) :
    dssFinalize n = some Fp.nan
    ∨ ∃ x : ℝ, dssFinalize n = some (Fp.fin x) ∧ 0 ≤ x ∧ x ≤ 100 := by
  unfold dssFinalize
  cases n with
  | nan =>
    have hc : ¬ (Fp.lt Fp.nan (Fp.fin 0) ∨ Fp.gt Fp.nan (Fp.fin 100)) := by
      rintro (h | h) <;> exact h
    rw [if_neg hc]
    exact Or.inl rfl
  | inf b =>
    cases b with
    | false =>
      rw [if_pos (show Fp.lt (Fp.inf false) (Fp.fin 0) ∨ Fp.gt (Fp.inf false) (Fp.fin 100)
        from Or.inl trivial)]
      exact Or.inr ⟨0, rfl, le_refl 0, by norm_num⟩
    | true =>
      rw [if_pos (show Fp.lt (Fp.inf true) (Fp.fin 0) ∨ Fp.gt (Fp.inf true) (Fp.fin 100)
        from Or.inr trivial)]
      exact Or.inr ⟨0, rfl, le_refl 0, by norm_num⟩
  | fin x =>
    by_cases hx : x < 0 ∨ 100 < x
    · rw [if_pos (show Fp.lt (Fp.fin x) (Fp.fin 0) ∨ Fp.gt (Fp.fin x) (Fp.fin 100) from hx)]
      exact Or.inr ⟨0, rfl, le_refl 0, by norm_num⟩
    · push_neg at hx
      rw [if_neg (show ¬ (Fp.lt (Fp.fin x) (Fp.fin 0) ∨ Fp.gt (Fp.fin x) (Fp.fin 100)) from by
        rintro (h | h)
        · exact absurd h (not_lt.mpr hx.1)
        · exact absurd h (not_lt.mpr hx.2))]
      exact Or.inr ⟨round2 x, rfl, (round2_mem x hx.1 hx.2).1, (round2_mem x hx.1 hx.2).2⟩

theorem dss_branch_cases (cond : Prop) (hdec : Decidable cond) (n : Fp) :
    @ite _ cond hdec (dssFinalize n) (some (Fp.fin 0)) = some Fp.nan
    ∨ ∃ x : ℝ, @ite _ cond hdec (dssFinalize n) (some (Fp.fin 0)) = some (Fp.fin x)
        ∧ 0 ≤ x ∧ x ≤ 100 := by
  split
  · exact dssFinalize_cases n
  · exact Or.inr ⟨0, rfl, le_refl 0, by norm_num⟩

/-- C3 as amended: for every input and every dss_type, `dss` returns
`None`, NaN (possible under degenerate arithmetic such as a zero
normalization area), or a finite value in [0, 100]; it never returns a
finite negative value, a finite value above 100, or an infinity. -/
theorem dss_range_amended :
    ∀ (ic50 slope max_val minT maxT y con_scale : Fp) (dss_type : ℕ),
      dss ic50 slope max_val minT maxT y dss_type con_scale = none
      ∨ dss ic50 slope max_val minT maxT y dss_type con_scale = some Fp.nan
      ∨ ∃ x : ℝ, dss ic50 slope max_val minT maxT y dss_type con_scale = some (Fp.fin x)
          ∧ 0 ≤ x ∧ x ≤ 100 := by
  intro ic50 slope max_val minT maxT y con_scale dss_type
  simp only [dss]
  split
  · exact Or.inl rfl
  · split
    · exact Or.inr (Or.inr ⟨0, rfl, le_refl 0, by norm_num⟩)
    · split
      · exact Or.inr (Or.inr ⟨0, rfl, le_refl 0, by norm_num⟩)
      · exact Or.inr (dss_branch_cases _ _ _)

theorem Fp.mul_nan_left (b : Fp) : Fp.mul Fp.nan b = Fp.nan := by
  cases b <;> rfl

theorem dssFinalize_nan : dssFinalize Fp.nan = some Fp.nan := by
  unfold dssFinalize
  rw [if_neg (show ¬ (Fp.lt Fp.nan (Fp.fin 0) ∨ Fp.gt Fp.nan (Fp.fin 100)) from by
    rintro (h | h) <;> exact h)]
  rfl

/-- Counterexample for C3: ordinary finite inputs with the minimum and
maximum tested concentrations equal (1 unit at scale 1, IC50 0.1, slope 1,
max_val 20, baseline 10, variant 1) drive `total_area` to 0, `int_y` to 0,
and `0 / 0` is NaN, which the final guard passes through — `dss` returns
NaN, refuting the claim's "never NaN". -/
theorem dss_nan_counterexample :
    dss (Fp.fin (1 / 10)) (Fp.fin 1) (Fp.fin 20) (Fp.fin 1) (Fp.fin 1) (Fp.fin 10) 1 (Fp.fin 1)
      = some Fp.nan := by
  have hlog : Real.log 10 ≠ 0 := ne_of_gt (Real.log_pos (by norm_num))
  simp only [dss]
  rw [Fp.mul_fin, Fp.mul_fin, show (1 : ℝ) * 1 = 1 by norm_num,
    show (1 : ℝ) / 10 * 1 = 1 / 10 by norm_num]
  rw [Fp.log10_fin_pos 1 one_pos, Real.logb_one]
  rw [Fp.log10_fin_pos (1 / 10) (by norm_num)]
  rw [if_neg (show ¬ ((Fp.isnan (Fp.fin (1 / 10)) || Fp.isnan (Fp.fin 1) || Fp.isnan (Fp.fin 20)
    || Fp.isnan (Fp.fin 0) || Fp.isnan (Fp.fin 1)) = true) from by simp [Fp.isnan])]
  rw [if_neg (show ¬ Fp.ge (Fp.fin (1 / 10)) (Fp.fin 1) from fun h => by
    have h2 : (1 : ℝ) ≤ 1 / 10 := h
    norm_num at h2)]
  rw [if_neg (show ¬ Fp.eqv (Fp.fin 1) (Fp.fin 0) from fun h => by
    have h2 : (1 : ℝ) = 0 := h
    norm_num at h2)]
  rw [if_neg (show ¬ Fp.gt (Fp.fin 20) (Fp.fin 100) from fun h => by
    have h2 : (100 : ℝ) < 20 := h
    norm_num at h2)]
  rw [if_neg (show ¬ Fp.lt (Fp.fin 1) (Fp.fin 0) from fun h => by
    have h2 : (1 : ℝ) < 0 := h
    norm_num at h2)]
  rw [if_pos (show Fp.gt (Fp.fin 20) (Fp.fin 10) from show (10 : ℝ) < 20 by norm_num)]
  simp only [dssX1]
  rw [if_pos (show ¬ Fp.eqv (Fp.fin 10) (Fp.fin 0) from fun h => by
    have h2 : (10 : ℝ) = 0 := h
    norm_num at h2)]
  rw [Fp.sub_fin 20 10, show (20 : ℝ) - 10 = 10 by norm_num,
    Fp.sub_fin 10 0, show (10 : ℝ) - 0 = 10 by norm_num]
  rw [Fp.ln_fin_pos 10 (by norm_num)]
  rw [Fp.sub_fin, sub_self]
  rw [Fp.mul_fin, one_mul]
  rw [Fp.div_fin 0 (Real.log 10) hlog, zero_div]
  rw [Fp.sub_fin, sub_zero]
  rw [if_pos (show Fp.lt (Fp.fin (Real.logb 10 (1 / 10))) (Fp.fin 0) from
    show Real.logb 10 (1 / 10) < 0 from Real.logb_neg (by norm_num) (by norm_num) (by norm_num))]
  simp only [quad4pl]
  rw [if_pos trivial]
  rw [Fp.sub_fin 0 0, sub_self, Fp.mul_fin, mul_zero, Fp.sub_fin 0 0, sub_self,
    Fp.sub_fin 100 10, Fp.mul_fin, zero_mul]
  simp only [dssNormArea, if_pos rfl]
  rw [Fp.div_zero_zero, Fp.mul_nan_left]
  exact dssFinalize_nan

open scoped Classical in
theorem not_gt_clamp_of_le (maxv y : Fp) (h : Fp.le maxv y) :
    ¬ Fp.gt (if Fp.gt maxv (Fp.fin 100) then Fp.fin 100 else maxv) y := by
  cases maxv with
  | nan =>
    cases y with
    | nan => exact absurd h (fun h2 => h2)
    | inf c => cases c <;> exact absurd h (fun h2 => h2)
    | fin v => exact absurd h (fun h2 => h2)
  | inf b =>
    cases b with
    | true =>
      cases y with
      | nan => exact absurd h (fun h2 => h2)
      | inf c =>
        cases c with
        | true =>
          rw [if_pos (show Fp.gt (Fp.inf true) (Fp.fin 100) from trivial)]
          exact fun h2 => h2
        | false => exact absurd h (fun h2 => h2)
      | fin v => exact absurd h (fun h2 => h2)
    | false =>
      rw [if_neg (show ¬ Fp.gt (Fp.inf false) (Fp.fin 100) from fun h2 => h2)]
      cases y with
      | nan => exact absurd h (fun h2 => h2)
      | inf c => cases c <;> exact fun h2 => h2
      | fin v => exact fun h2 => h2
  | fin v =>
    cases y with
    | nan => exact absurd h (fun h2 => h2)
    | inf c =>
      cases c with
      | true =>
        intro h2
        by_cases h3 : Fp.gt (Fp.fin v) (Fp.fin 100)
        · rw [if_pos h3] at h2; exact h2
        · rw [if_neg h3] at h2; exact h2
      | false => exact absurd h (fun h2 => h2)
    | fin yv =>
      have hvy : v ≤ yv := h
      by_cases h3 : Fp.gt (Fp.fin v) (Fp.fin 100)
      · rw [if_pos h3]
        have h4 : (100 : ℝ) < v := h3
        intro h2
        have h5 : yv < (100 : ℝ) := h2
        linarith
      · rw [if_neg h3]
        intro h2
        have h5 : yv < v := h2
        linarith

/-- C4 as amended: `dss` returns `None` when IC50, slope, max_val, the
log10-transformed MINIMUM tested concentration, or the RAW (untransformed)
maximum tested concentration is NaN — infinities are not caught by the
`np.isnan` guard; and when the NaN guard does not fire it returns 0
whenever IC50 ≥ max tested concentration, or slope == 0, or max_val ≤ y,
for every dss_type. -/
theorem dss_guards_amended :
    ∀ (ic50 slope max_val minT maxT y con_scale : Fp) (dss_type : ℕ),
      ((Fp.isnan ic50 || Fp.isnan slope || Fp.isnan max_val
          || Fp.isnan (Fp.log10 (Fp.mul minT con_scale)) || Fp.isnan maxT) = true →
        dss ic50 slope max_val minT maxT y dss_type con_scale = none)
      ∧ ((Fp.isnan ic50 || Fp.isnan slope || Fp.isnan max_val
          || Fp.isnan (Fp.log10 (Fp.mul minT con_scale)) || Fp.isnan maxT) = false →
        (Fp.ge ic50 maxT ∨ Fp.eqv slope (Fp.fin 0) ∨ Fp.le max_val y) →
        dss ic50 slope max_val minT maxT y dss_type con_scale = some (Fp.fin 0)) := by
  intro ic50 slope max_val minT maxT y con_scale dss_type
  constructor
  · intro h
    simp only [dss]
    rw [if_pos h]
  · intro h hor
    simp only [dss]
    rw [if_neg (show ¬ ((Fp.isnan ic50 || Fp.isnan slope || Fp.isnan max_val
      || Fp.isnan (Fp.log10 (Fp.mul minT con_scale)) || Fp.isnan maxT) = true) from by
        rw [h]; exact Bool.false_ne_true)]
    by_cases h1 : Fp.ge ic50 maxT
    · rw [if_pos h1]
    · rw [if_neg h1]
      by_cases h2 : Fp.eqv slope (Fp.fin 0)
      · rw [if_pos h2]
      · rw [if_neg h2]
        have h3 : Fp.le max_val y := by
          rcases hor with h4 | h4 | h4
          · exact absurd h4 h1
          · exact absurd h4 h2
          · exact h4
        rw [if_neg (not_gt_clamp_of_le max_val y h3)]

/-- Counterexample for C4: IC50 = +∞ is non-finite, yet `dss` returns 0
rather than `None`, because `np.isnan(inf)` is false and the `ic50 >=
max_con` guard then fires. -/
theorem dss_infinite_ic50_counterexample :
    dss (Fp.inf true) (Fp.fin 1) (Fp.fin 20) (Fp.fin 1) (Fp.fin 10) (Fp.fin 10) 2 (Fp.fin 1)
      ≠ none
    ∧ dss (Fp.inf true) (Fp.fin 1) (Fp.fin 20) (Fp.fin 1) (Fp.fin 10) (Fp.fin 10) 2 (Fp.fin 1)
      = some (Fp.fin 0) := by
  have hmain : dss (Fp.inf true) (Fp.fin 1) (Fp.fin 20) (Fp.fin 1) (Fp.fin 10) (Fp.fin 10) 2
      (Fp.fin 1) = some (Fp.fin 0) := by
    simp only [dss]
    rw [Fp.mul_fin, show (1 : ℝ) * 1 = 1 by norm_num, Fp.log10_fin_pos 1 one_pos]
    rw [if_neg (show ¬ ((Fp.isnan (Fp.inf true) || Fp.isnan (Fp.fin 1) || Fp.isnan (Fp.fin 20)
      || Fp.isnan (Fp.fin (Real.logb 10 1)) || Fp.isnan (Fp.fin 10)) = true) from by
        simp [Fp.isnan])]
    rw [if_pos (show Fp.ge (Fp.inf true) (Fp.fin 10) from trivial)]
  exact ⟨by rw [hmain]; exact Option.some_ne_none _, hmain⟩

/-- Witness for C4's amended theorem: a NaN IC50 yields `None`, and a
finite IC50 at or above the maximum tested concentration yields 0. -/
theorem dss_guards_amended_witness :
    ((Fp.isnan Fp.nan || Fp.isnan (Fp.fin 1) || Fp.isnan (Fp.fin 50)
        || Fp.isnan (Fp.log10 (Fp.mul (Fp.fin 1) (Fp.fin 1))) || Fp.isnan (Fp.fin 10)) = true
      ∧ dss Fp.nan (Fp.fin 1) (Fp.fin 50) (Fp.fin 1) (Fp.fin 10) (Fp.fin 10) 1 (Fp.fin 1)
          = none)
    ∧ ((Fp.isnan (Fp.fin 20) || Fp.isnan (Fp.fin 1) || Fp.isnan (Fp.fin 50)
        || Fp.isnan (Fp.log10 (Fp.mul (Fp.fin 1) (Fp.fin 1))) || Fp.isnan (Fp.fin 10)) = false
      ∧ dss (Fp.fin 20) (Fp.fin 1) (Fp.fin 50) (Fp.fin 1) (Fp.fin 10) (Fp.fin 10) 1 (Fp.fin 1)
          = some (Fp.fin 0)) := by
  have hg1 : (Fp.isnan Fp.nan || Fp.isnan (Fp.fin 1) || Fp.isnan (Fp.fin 50)
      || Fp.isnan (Fp.log10 (Fp.mul (Fp.fin 1) (Fp.fin 1))) || Fp.isnan (Fp.fin 10)) = true := by
    simp [Fp.isnan]
  have hg2 : (Fp.isnan (Fp.fin 20) || Fp.isnan (Fp.fin 1) || Fp.isnan (Fp.fin 50)
      || Fp.isnan (Fp.log10 (Fp.mul (Fp.fin 1) (Fp.fin 1))) || Fp.isnan (Fp.fin 10)) = false := by
    rw [Fp.mul_fin, show (1 : ℝ) * 1 = 1 by norm_num, Fp.log10_fin_pos 1 one_pos]
    simp [Fp.isnan]
  exact ⟨⟨hg1, (dss_guards_amended Fp.nan (Fp.fin 1) (Fp.fin 50) (Fp.fin 1) (Fp.fin 10)
      (Fp.fin 10) (Fp.fin 1) 1).1 hg1⟩,
    ⟨hg2, (dss_guards_amended (Fp.fin 20) (Fp.fin 1) (Fp.fin 50) (Fp.fin 1) (Fp.fin 10)
      (Fp.fin 10) (Fp.fin 1) 1).2 hg2
      (Or.inl (show Fp.ge (Fp.fin 20) (Fp.fin 10) from show (10 : ℝ) ≤ 20 by norm_num))⟩⟩
